import Mathlib

/-!
Verification development for the balena-supervisor target-state
synchronization engine and the dependent-device reconciliation planner
("proxyvisor").

The development is a shallow embedding of two source files:

* the target-state fetch/cache/emit module (`update`, `poll`, `get`,
  `startPoll`), and
* `src/proxyvisor.js` (diff engine `getRequiredSteps` /
  `nextStepsForDependentApp` / `_getHookStep` / `_compareDevices`,
  the action dispatcher `executeStepAction`, the target setter
  `setTargetInTransaction`, tarball pruning `cleanupTars`, and the hook
  sender `sendUpdate`).

Modelling conventions:

* JSON objects used only as string→string maps (`config`, `environment`)
  are modelled as association lists `List (String × String)` compared by
  structural equality; the JS deep comparison `_.isEqual` on such values is
  modelled by decidable equality of the model values.
* Fallible JS code (property access on `null`/`undefined` that would raise
  a `TypeError`) is modelled with `Option`: a `none` result is a thrown
  exception.
* `_.cloneDeep` on immutable model values is the identity; deep-equality of
  the clone to the original is equality.
* Machine timestamps and millisecond durations are `Nat`.
-/

namespace BalenaSupervisor

/-! ## Target-state fetch/update protocol (api-binder target-state module) -/

/-- The target-state document body. The document is opaque to the module
(it is only stored, deep-copied and emitted), so we model it as a string. -/
abbrev TargetStateDoc := String

/-- `_.cloneDeep` on an immutable model value: the clone is the value
itself; deep-equality to the original holds definitionally. -/
def cloneDeep (x : α) : α := x

/-- The module-level cache: `{ etag?: string; body: TargetState }`. -/
structure TargetStateCache where
  etag : Option String
  body : TargetStateDoc
deriving DecidableEq

/-- Options object for `request.getAsync`: the `json` flag plus an optional
`If-None-Match` request header (the only header the source ever sets). -/
structure RequestOptions where
  json : Bool
  ifNoneMatch : Option String
deriving DecidableEq

/-- The `params` object built by `update` (source lines 69–77): `json: true`,
plus an `If-None-Match` header holding the cached etag whenever
`typeof cache?.etag === 'string'`. -/
def builtParams (cache : Option TargetStateCache) : RequestOptions :=
  { json := true
    ifNoneMatch :=
      match cache with
      | some c => c.etag
      | none => none }

/-- The options object actually passed to `request.getAsync` (source lines
79–83): the source passes a fresh literal `{ json: true }` and never uses
the `params` value it just built, so no `If-None-Match` header is ever
sent, whatever the cache holds. -/
def sentParams (_cache : Option TargetStateCache) : RequestOptions :=
  { json := true, ifNoneMatch := none }

/-- The remote endpoint's response: status code, the `etag` response header,
and the parsed body. -/
structure TsResponse where
  statusCode : Nat
  etag : Option String
  body : TargetStateDoc
deriving DecidableEq

/-- The `target-state-update` event payload: the (deep-copied) body plus the
`force` / `isFromApi` flags. -/
structure UpdateEvent where
  body : TargetStateDoc
  force : Bool
  isFromApi : Bool
deriving DecidableEq

/-- Module state of the target-state module: the cache (absent until the
first successful fetch) and the `lastFetch` timestamp. -/
structure SyncState where
  cache : Option TargetStateCache
  lastFetch : Nat
deriving DecidableEq

/-- One `update(force, isFromApi)` call, given the response the remote
returns and the clock value for the `finally` block. Returns the new module
state and the list of emitted `target-state-update` events.

* a 304 response returns without touching the cache and emits nothing;
* any other response replaces the cache wholesale with the new body and the
  `etag` response header, and emits one event with a deep copy of the body.

`lastFetch` is recorded unconditionally in the `finally` block. -/
def update (force isFromApi : Bool) (st : SyncState) (resp : TsResponse)
    (now : Nat) : SyncState × List UpdateEvent :=
  if resp.statusCode = 304 then
    ({ st with lastFetch := now }, [])
  else
    ({ cache := some { etag := resp.etag, body := resp.body }
       lastFetch := now },
     [{ body := cloneDeep resp.body, force := force, isFromApi := isFromApi }])

/-! ## Poller backoff (the `poll` loop's sleep computation) -/

/-- Result of one poll cycle: the sleep duration chosen and the new value of
the consecutive-failure counter `targetStateFetchErrors`. -/
structure PollOutcome where
  sleep : Nat
  errors : Nat
deriving DecidableEq

/-- One cycle of the `poll` loop, given the configured
`appUpdatePollInterval`, the jitter drawn for this cycle
(`Math.random() * maxApiJitterDelay`), whether `update()` succeeded, and
the current consecutive-failure counter.

On success the counter resets to 0 and the sleep is the jittered nominal
interval; on failure the sleep is
`min(appUpdatePollInterval, 15000 * 2 ^ errors)` and the counter is
incremented. -/
def pollStep (appUpdatePollInterval jitter : Nat) (updateSucceeded : Bool)
    (targetStateFetchErrors : Nat) : PollOutcome :=
  if updateSucceeded then
    { sleep := jitter + appUpdatePollInterval, errors := 0 }
  else
    { sleep := min appUpdatePollInterval (15000 * 2 ^ targetStateFetchErrors)
      errors := targetStateFetchErrors + 1 }

/-- The failure counter after `n` consecutive failed cycles starting from a
freshly reset counter. -/
def errorsAfterFailures (appUpdatePollInterval jitter : Nat) : Nat → Nat
  | 0 => 0
  | n + 1 =>
    (pollStep appUpdatePollInterval jitter false
      (errorsAfterFailures appUpdatePollInterval jitter n)).errors

/-! ## Proxyvisor data model -/

/-- A JSON object used as a string→string map (`config` / `environment`),
modelled as an association list. -/
abbrev Env := List (String × String)

/-- A dependent-app record, the common shape of current
(`normaliseDependentAppFromDB`) and target rows. -/
structure DependentApp where
  appId : Nat
  name : String
  commit : Option String
  releaseId : Option Nat
  image : Option String
  imageId : Option Nat
  config : Env
  environment : Env
  parentApp : Nat
deriving DecidableEq

/-- The per-app entry of a current dependent-device row as shaped by
`getCurrentStates`: current and target commit/config/environment. The
JSON-parsed object fields may be `null` in the DB, hence `Option`. -/
structure DeviceAppState where
  commit : Option String
  config : Option Env
  environment : Option Env
  targetCommit : Option String
  targetEnvironment : Option Env
  targetConfig : Option Env
deriving DecidableEq

/-- A current dependent-device as shaped by `getCurrentStates`:
identity fields plus a single-entry `apps` map keyed by appId. -/
structure CurrentDevice where
  uuid : String
  name : String
  lockExpiryDate : Option String
  markedForDeletion : Bool
  apps : List (Nat × DeviceAppState)
deriving DecidableEq

/-- The per-app entry of a normalized device target
(`normaliseDependentDeviceTargetFromDB`, and the shape `_compareDevices`
builds from a current device). -/
structure DeviceAppTarget where
  commit : Option String
  environment : Env
  config : Env
deriving DecidableEq

/-- A normalized dependent-device target: `{uuid, name, apps}`. -/
structure TargetDevice where
  uuid : String
  name : String
  apps : List (Nat × DeviceAppTarget)
deriving DecidableEq

/-- The state object `_getHookStep` builds for a device (both `targetState`
and `currentState` have this shape, and it is what hooks deliver and the
acknowledged-state map stores). -/
structure TState where
  appId : Nat
  commit : Option String
  config : Option Env
  environment : Option Env
deriving DecidableEq

/-- The process-wide `acknowledgedState` map: uuid → last acknowledged
target (`none` in the codomain models an explicit `null` entry). -/
abbrev AckMap := List (String × Option TState)

/-- An entry of the available-images inventory; `_.some(available, {name})`
matches on the `name` field only. -/
structure AvailImage where
  name : String
deriving DecidableEq

/-- The fields of an in-progress step that the diff engine reads (`noop`
steps carry no `appId`, hence `Option`). -/
structure StepInProgress where
  appId : Option Nat
deriving DecidableEq

/-- The image descriptor attached to a `fetch` step
(`imageForDependentApp`). -/
structure FetchImage where
  name : Option String
  imageId : Option Nat
  appId : Nat
  dependent : Bool
deriving DecidableEq

/-- An entry of a `sendDependentHooks` step's device list: either
`{uuid, markedForDeletion: true}` or `{uuid, target}`. -/
inductive HookDevice where
  | forDeletion (uuid : String)
  | withTarget (uuid : String) (target : TState)
deriving DecidableEq

/-- A step produced by the diff engine. -/
inductive Step where
  | removeDependentApp (appId : Nat)
  | noop
  | fetch (appId : Nat) (image : FetchImage)
  | updateDependentTargets (devices : List TargetDevice) (app : DependentApp)
      (appId : Nat)
  | sendDependentHooks (devices : List HookDevice) (appId : Nat)
deriving DecidableEq

/-! ## Proxyvisor helper semantics -/

/-- Lookup in a JS object modelled as an association list (keys unique, so
first match). -/
def lookupApp? (apps : List (Nat × α)) (id : Nat) : Option α :=
  (apps.find? (fun e => e.1 = id)).map (fun e => e.2)

/-- Deduplication keeping the first occurrence (JS object key insertion). -/
def insertionDedup : List Nat → List Nat
  | [] => []
  | x :: xs => x :: (insertionDedup xs).filter (fun y => y ≠ x)

/-- `Object.keys` on a JS object whose keys are numeric strings: keys are
enumerated in ascending numeric order. -/
def jsObjectKeys (ids : List Nat) : List Nat :=
  (insertionDedup ids).insertionSort (· ≤ ·)

/-- `_.keyBy(apps, 'appId')` followed by indexing: the last record with the
given appId wins. -/
def keyByAppId (apps : List DependentApp) (id : Nat) : Option DependentApp :=
  (apps.filter (fun a => a.appId = id)).getLast?

/-- `_imageAvailable(image, available)`:
`_.some(available, { name: image })`. -/
def imageAvailable (image : String) (available : List AvailImage) : Bool :=
  available.any (fun i => i.name = image)

/-- The normalized device-target shape `_compareDevices` builds from one
non-deleted current device: drop `markedForDeletion` and
`lock_expiry_date`, and replace `apps` with the single-entry map carrying
the device's target commit/environment/config (environment and config
defaulted to `{}` via `|| {}`). `none` models the `TypeError` raised when
the device has no entry for `appId`. -/
def deviceTargetOf (appId : Nat) (d : CurrentDevice) : Option TargetDevice :=
  (lookupApp? d.apps appId).map (fun a =>
    { uuid := d.uuid
      name := d.name
      apps := [(appId,
        { commit := a.targetCommit
          environment := a.targetEnvironment.getD []
          config := a.targetConfig.getD [] })] })

/-- The `currentDeviceTargets` list of `_compareDevices`: deletion-marked
devices map to `null` and are filtered out; the rest are normalized by
`deviceTargetOf`. -/
def currentDeviceTargets (appId : Nat) :
    List CurrentDevice → Option (List TargetDevice)
  | [] => some []
  | d :: rest =>
    match currentDeviceTargets appId rest with
    | none => none
    | some tail =>
      if d.markedForDeletion then some tail
      else
        match deviceTargetOf appId d with
        | none => none
        | some t => some (t :: tail)

/-- `_.isEmpty(_.xorWith(a, b, _.isEqual))`: the symmetric difference is
empty exactly when every element of each list deep-equals some element of
the other. -/
def xorWithIsEmpty (a b : List TargetDevice) : Bool :=
  a.all (fun x => b.any (fun y => y = x)) &&
    b.all (fun y => a.any (fun x => x = y))

/-- `_compareDevices(currentDevices, targetDevices, appId)`: true when the
normalized current device targets and the target devices differ as sets
under deep equality. -/
def compareDevices (currentDevices : List CurrentDevice)
    (targetDevices : List TargetDevice) (appId : Nat) : Option Bool :=
  match currentDeviceTargets appId currentDevices with
  | none => none
  | some currentTargets =>
    some (!xorWithIsEmpty currentTargets targetDevices)

/-- The target state `_getHookStep` builds for a device's app entry. -/
def targetStateOf (appId : Nat) (a : DeviceAppState) : TState :=
  { appId := appId
    commit := a.targetCommit
    config := a.targetConfig
    environment := a.targetEnvironment }

/-- The current state `_getHookStep` builds for a device's app entry. -/
def currentStateOf (appId : Nat) (a : DeviceAppState) : TState :=
  { appId := appId
    commit := a.commit
    config := a.config
    environment := a.environment }

/-- `_.isEqual(targetState, acknowledgedState[uuid])`: true exactly when
the map holds a non-null entry for `uuid` deep-equal to `ts` (comparison of
an object against `undefined` or `null` is false). -/
def ackMatches (ack : AckMap) (uuid : String) (ts : TState) : Bool :=
  match (ack.find? (fun e => e.1 = uuid)).map (fun e => e.2) with
  | some (some t) => t = ts
  | _ => false

/-- The device list of `_getHookStep(currentDevices, appId)`, reading the
process-wide `acknowledgedState` map `ack`. A deletion-marked device always
contributes a deletion entry; any other device contributes an update entry
exactly when its target commit is non-null and its target state differs
both from its current state and from its acknowledged state. `none` models
the `TypeError` on a device with no entry for `appId`. -/
def getHookStepDevices (ack : AckMap) (appId : Nat) :
    List CurrentDevice → Option (List HookDevice)
  | [] => some []
  | d :: rest =>
    match getHookStepDevices ack appId rest with
    | none => none
    | some tail =>
      if d.markedForDeletion then some (.forDeletion d.uuid :: tail)
      else
        match lookupApp? d.apps appId with
        | none => none
        | some a =>
          if a.targetCommit ≠ none ∧
              targetStateOf appId a ≠ currentStateOf appId a ∧
              ¬ackMatches ack d.uuid (targetStateOf appId a) then
            some (.withTarget d.uuid (targetStateOf appId a) :: tail)
          else some tail

/-- The uuid a hook-step device entry carries. -/
def HookDevice.uuidOf : HookDevice → String
  | .forDeletion u => u
  | .withTarget u _ => u

/-- `imageForDependentApp(app)`. -/
def imageForDependentApp (app : DependentApp) : FetchImage :=
  { name := app.image
    imageId := app.imageId
    appId := app.appId
    dependent := true }

/-- `nextStepsForDependentApp`, reading the process-wide `acknowledgedState`
map `ack` (through `_getHookStep`). The rules, in source order:
removal when the target app is absent; `noop` while a step in progress
targets the parent app; `fetch`/`noop` when the target image is missing;
`updateDependentTargets` when app records or device targets differ; else a
`sendDependentHooks` step when any device qualifies, and no step at all
otherwise. `none` models a thrown `TypeError`. -/
def nextStepsForDependentApp (ack : AckMap) (appId : Nat)
    (availableImages : List AvailImage) (downloading : List Nat)
    (current target : Option DependentApp)
    (currentDevices : List CurrentDevice) (targetDevices : List TargetDevice)
    (stepsInProgress : List StepInProgress) : Option (List Step) :=
  match target with
  | none =>
    match current with
    | some cur => some [.removeDependentApp cur.appId]
    | none => none
  | some tgt =>
    if stepsInProgress.any (fun s => s.appId = some tgt.parentApp) then
      some [.noop]
    else
      let needsDownload : Bool :=
        tgt.commit.isSome &&
          (match tgt.image with
           | some img => !imageAvailable img availableImages
           | none => false)
      if needsDownload then
        if (match tgt.imageId with
            | some i => downloading.contains i
            | none => false) then
          some [.noop]
        else
          some [.fetch appId (imageForDependentApp tgt)]
      else
        match compareDevices currentDevices targetDevices appId with
        | none => none
        | some devicesDiffer =>
          if current ≠ some tgt ∨ devicesDiffer = true then
            some [.updateDependentTargets targetDevices tgt appId]
          else
            match getHookStepDevices ack appId currentDevices with
            | none => none
            | some hookDevices =>
              if hookDevices.isEmpty then some []
              else some [.sendDependentHooks hookDevices appId]

/-- The `current` argument of `getRequiredSteps`: the dependent apps and
devices of the current state (`getCurrentStates` shape). -/
structure DependentCurrent where
  apps : List DependentApp
  devices : List CurrentDevice
deriving DecidableEq

/-- The `target` argument of `getRequiredSteps`: the dependent apps and
normalized device targets (`getTarget` shape). -/
structure DependentTarget where
  apps : List DependentApp
  devices : List TargetDevice
deriving DecidableEq

/-- `getRequiredSteps(availableImages, downloading, current, target,
stepsInProgress)`, reading the process-wide `acknowledgedState` map `ack`:
for each appId in the union of target and current app keys, filter the
devices referencing that app and concatenate the per-app steps. -/
def getRequiredSteps (ack : AckMap) (availableImages : List AvailImage)
    (downloading : List Nat) (current : DependentCurrent)
    (target : DependentTarget) (stepsInProgress : List StepInProgress) :
    Option (List Step) :=
  let targetAppIds := jsObjectKeys (target.apps.map (fun a => a.appId))
  let currentAppIds := jsObjectKeys (current.apps.map (fun a => a.appId))
  let allAppIds := insertionDedup (targetAppIds ++ currentAppIds)
  (allAppIds.mapM (fun appId =>
    nextStepsForDependentApp ack appId availableImages downloading
      (keyByAppId current.apps appId) (keyByAppId target.apps appId)
      (current.devices.filter (fun d => d.apps.any (fun e => e.1 = appId)))
      (target.devices.filter (fun d => d.apps.any (fun e => e.1 = appId)))
      stepsInProgress)).map List.flatten

/-- The process-wide mutable state of a `Proxyvisor` instance that is not
passed to `getRequiredSteps` as an argument. -/
structure ProxyvisorState where
  acknowledgedState : AckMap
  lastRequestForDevice : List (String × Nat)
deriving DecidableEq

/-- `getRequiredSteps` as invoked on a `Proxyvisor` instance: the instance
state supplies the `acknowledgedState` map. -/
def getRequiredStepsOn (st : ProxyvisorState)
    (availableImages : List AvailImage) (downloading : List Nat)
    (current : DependentCurrent) (target : DependentTarget)
    (stepsInProgress : List StepInProgress) : Option (List Step) :=
  getRequiredSteps st.acknowledgedState availableImages downloading current
    target stepsInProgress

/-! ## Action executor dispatch -/

/-- The three handlers actually installed in `this.actionExecutors` by the
`Proxyvisor` constructor. -/
inductive ActionHandler where
  | updateDependentTargets
  | sendDependentHooks
  | removeDependentApp
deriving DecidableEq

/-- `this.actionExecutors[action]`: the dispatch table lookup. The object
literal defines exactly the keys `updateDependentTargets`,
`sendDependentHooks` and `removeDependentApp`. -/
def actionExecutorFor (action : String) : Option ActionHandler :=
  if action = "updateDependentTargets" then some .updateDependentTargets
  else if action = "sendDependentHooks" then some .sendDependentHooks
  else if action = "removeDependentApp" then some .removeDependentApp
  else none

/-- `this.validActions = _.keys(this.actionExecutors)`. -/
def validActions : List String :=
  ["updateDependentTargets", "sendDependentHooks", "removeDependentApp"]

/-- `executeStepAction(step)`: dispatch on `step.action`; when the lookup
yields nothing, throw `Invalid proxyvisor action <action>`. -/
def executeStepAction (action : String) : Except String ActionHandler :=
  match actionExecutorFor action with
  | none => .error (s!"Invalid proxyvisor action {action}")
  | some h => .ok h

/-- The `action` string a produced step carries, as written by the diff
engine. -/
def Step.actionOf : Step → String
  | .removeDependentApp _ => "removeDependentApp"
  | .noop => "noop"
  | .fetch _ _ => "fetch"
  | .updateDependentTargets _ _ _ => "updateDependentTargets"
  | .sendDependentHooks _ _ => "sendDependentHooks"

/-! ## Tarball pruning (`cleanupTars`) -/

/-- `tarFilename(appId, commit)`. -/
def tarFilename (appId : Nat) (commit : String) : String :=
  s!"{appId}-{commit}.tar"

/-- Decimal value of an all-digit character list. -/
def digitsToNat (cs : List Char) : Nat :=
  cs.foldl (fun n c => n * 10 + (c.toNat - 48)) 0

/-- Truthiness of `_.property(path)` applied to a JS string primitive, as
used by lodash's iteratee shorthand: a path containing a dot is a
multi-segment path, which bottoms out at `undefined` on a string; a
single-segment path yields the `length` property or a character at a
numeric index; any other lookup yields `undefined`, which is falsy. -/
def jsStringPathTruthy (s : String) (path : String) : Bool :=
  let cs := path.toList
  if cs.contains '.' then false
  else if path = "length" then s.length != 0
  else if cs ≠ [] ∧ cs.all (fun c => c.isDigit) then
    decide (digitsToNat cs < s.length)
  else false

/-- `_.reject(files, p)` with a string second argument: lodash interprets
the string as a property-path iteratee, so an element is rejected exactly
when that property of the element is truthy. -/
def lodashRejectShorthand (files : List String) (p : String) : List String :=
  files.filter (fun f => !jsStringPathTruthy f p)

/-- The files `cleanupTars(appId, commit)` unlinks, given the directory
listing: with a non-null commit the listing is first passed through
`_.reject(files, fileToKeep)`; every file remaining is deleted. -/
def cleanupTarsDeleted (appId : Nat) (commit : Option String)
    (dirFiles : List String) : List String :=
  match commit.map (tarFilename appId) with
  | some fileToKeep => lodashRejectShorthand dirFiles fileToKeep
  | none => dirFiles

/-! ## Target setter (`setTargetInTransaction`) -/

/-- A per-app entry of a desired-state device (`dependent.devices[uuid]
.apps[appId]`): any given commit is ignored (overwritten by the parent
app's commit); config and environment may be absent. -/
structure InputDeviceApp where
  config : Option Env
  environment : Option Env
deriving DecidableEq

/-- A desired-state device (`dependent.devices[uuid]`). -/
structure InputDevice where
  name : String
  apps : List (Nat × InputDeviceApp)
deriving DecidableEq

/-- The desired-state object handed to `setTargetInTransaction`: optional
`apps` map keyed by appId and optional `devices` map keyed by uuid. -/
structure DependentInput where
  apps : Option (List (Nat × DependentApp))
  devices : Option (List (String × InputDevice))
deriving DecidableEq

/-- The two tables `setTargetInTransaction` mutates, rows modelled
structurally (JSON-serialized columns keep their parsed values). -/
structure DepDbState where
  appTargets : List DependentApp
  deviceTargets : List TargetDevice
deriving DecidableEq

/-- `db.upsertModel('dependentAppTarget', app, { appId })`: update all rows
matching the key, inserting when none matched. -/
def upsertAppRow (row : DependentApp) (rows : List DependentApp) :
    List DependentApp :=
  if rows.any (fun r => r.appId = row.appId) then
    rows.map (fun r => if r.appId = row.appId then row else r)
  else rows ++ [row]

/-- `db.upsertModel('dependentDeviceTarget', device, { uuid })`. -/
def upsertDeviceTargetRow (row : TargetDevice) (rows : List TargetDevice) :
    List TargetDevice :=
  if rows.any (fun r => r.uuid = row.uuid) then
    rows.map (fun r => if r.uuid = row.uuid then row else r)
  else rows ++ [row]

/-- `normaliseDependentAppForDB(app)`: the image reference is normalized
through the external `images.normalise` collaborator, kept abstract as a
function parameter; the remaining fields are carried over (config and
environment serialization is modelled structurally). -/
def normaliseDependentAppForDB (normaliseImage : String → String)
    (app : DependentApp) : DependentApp :=
  { app with image := app.image.map normaliseImage }

/-- JS `x || null` on an optional string: `null`/`undefined` and the empty
string collapse to `null`. -/
def jsOrNull : Option String → Option String
  | some s => if s = "" then none else some s
  | none => none

/-- `normaliseDependentDeviceTargetForDB(device, appCommit)`: every app
entry's commit is replaced by `appCommit || null` and its config and
environment default to `{}`. -/
def normaliseDependentDeviceTargetForDB (uuid : String)
    (device : InputDevice) (appCommit : Option String) : TargetDevice :=
  { uuid := uuid
    name := device.name
    apps := device.apps.map (fun e =>
      (e.1,
       { commit := jsOrNull appCommit
         environment := e.2.environment.getD []
         config := e.2.config.getD [] })) }

/-- The `devicesForDB` list of `setTargetInTransaction`: each desired
device is normalized after reading `dependent.apps[appId]?.commit`, an
access that throws a `TypeError` (modelled as `none`) when
`dependent.apps` is null. -/
def devicesTargetsForDB (apps? : Option (List (Nat × DependentApp))) :
    List (String × InputDevice) → Option (List TargetDevice)
  | [] => some []
  | e :: rest =>
    match devicesTargetsForDB apps? rest with
    | none => none
    | some tail =>
      match apps? with
      | none => none
      | some apps =>
        let appId? := (jsObjectKeys (e.2.apps.map (fun x => x.1))).head?
        let appCommit := appId?.bind (fun id =>
          (lookupApp? apps id).bind (fun a => a.commit))
        some (normaliseDependentDeviceTargetForDB e.1 e.2 appCommit :: tail)

/-- `setTargetInTransaction(dependent, trx)`. When `dependent.apps` is
non-null, each target app row is upserted (keys enumerated in ascending
numeric order, the JS object key order) and rows with appIds outside the
new keyset are deleted; otherwise the app table is untouched. Then, when
`dependent.devices` is non-null, each device is normalized
(`devicesTargetsForDB`) and upserted, and device rows with uuids outside
the new keyset are deleted; otherwise the device table is untouched. -/
def setTargetInTransaction (normaliseImage : String → String)
    (dependent : DependentInput) (db : DepDbState) : Option DepDbState :=
  let db1 :=
    match dependent.apps with
    | none => db
    | some apps =>
      let appIds := jsObjectKeys (apps.map (fun e => e.1))
      let appsForDB := appIds.filterMap (fun id =>
        (lookupApp? apps id).map (fun a =>
          normaliseDependentAppForDB normaliseImage { a with appId := id }))
      let upserted := appsForDB.foldl (fun rows a => upsertAppRow a rows)
        db.appTargets
      { db with
        appTargets := upserted.filter (fun r =>
          appsForDB.any (fun a => a.appId = r.appId)) }
  match dependent.devices with
  | none => some db1
  | some devices =>
    match devicesTargetsForDB dependent.apps devices with
    | none => none
    | some devicesForDB =>
      let upserted := devicesForDB.foldl
        (fun rows r => upsertDeviceTargetRow r rows) db1.deviceTargets
      some { db1 with
        deviceTargets := upserted.filter (fun r =>
          devicesForDB.any (fun x => x.uuid = r.uuid)) }

/-- `setTargetInTransaction` under knex transaction semantics: a thrown
error rolls the whole transaction back, leaving both tables as they
were. -/
def applySetTarget (normaliseImage : String → String)
    (dependent : DependentInput) (db : DepDbState) : DepDbState :=
  (setTargetInTransaction normaliseImage dependent db).getD db

/-! ## Hook delivery (`sendUpdate`) -/

/-- `this.acknowledgedState[uuid] = v`. -/
def ackSet (ack : AckMap) (uuid : String) (v : Option TState) : AckMap :=
  if ack.any (fun e => e.1 = uuid) then
    ack.map (fun e => if e.1 = uuid then (uuid, v) else e)
  else ack ++ [(uuid, v)]

/-- `this.acknowledgedState[uuid]` (outer `none` = key absent). -/
def ackLookup (ack : AckMap) (uuid : String) : Option (Option TState) :=
  (ack.find? (fun e => e.1 = uuid)).map (fun e => e.2)

/-- Outcome of one `sendUpdate` call: the new acknowledged-state map and
whether the non-2xx error was raised (it is then caught and logged, never
rethrown). -/
structure SendUpdateResult where
  acknowledgedState : AckMap
  errorLogged : Bool
deriving DecidableEq

/-- `sendUpdate(device, timeout, endpoint)`, given the hook endpoint's
response status: a 200 records `device.target` as the acknowledged state
for the uuid; any other status stores `null` there, and any status other
than 202 additionally raises the `Hook returned <status>` error, which the
final `.catch` logs. -/
def sendUpdate (ack : AckMap) (uuid : String) (target : TState)
    (statusCode : Nat) : SendUpdateResult :=
  if statusCode = 200 then
    { acknowledgedState := ackSet ack uuid (some target)
      errorLogged := false }
  else
    { acknowledgedState := ackSet ack uuid none
      errorLogged := statusCode != 202 }

/-! ## Helper lemmas -/

/-- Assigning `acknowledgedState[uuid]` makes the subsequent lookup for
`uuid` return exactly the assigned value. -/
theorem ackLookup_ackSet (a : AckMap) (u : String) (v : Option TState) :
    ackLookup (ackSet a u v) u = some v := by
  induction a with
  | nil => simp [ackSet, ackLookup]
  | cons e rest ih =>
    by_cases he : e.1 = u
    · simp [ackSet, ackLookup, he]
    · by_cases hr : rest.any (fun x => x.1 = u)
      · simpa [ackSet, ackLookup, he, hr] using ih
      · simpa [ackSet, ackLookup, he, hr] using ih

/-- `_.isEqual(ts, acknowledgedState[uuid])` right after an assignment to
that uuid: it is the comparison against the assigned value (false when the
assigned value is `null`). -/
theorem ackMatches_ackSet (a : AckMap) (u : String) (v : Option TState)
    (ts : TState) :
    ackMatches (ackSet a u v) u ts =
      match v with
      | some t => decide (t = ts)
      | none => false := by
  have h := ackLookup_ackSet a u v
  simp only [ackLookup] at h
  simp only [ackMatches, h]
  cases v <;> rfl

/-- Every uuid appearing in a computed hook-step device list comes from one
of the scanned current devices. -/
theorem getHookStepDevices_uuidOf_mem (ack : AckMap) (appId : Nat)
    (devs : List CurrentDevice) :
    ∀ es, getHookStepDevices ack appId devs = some es →
      ∀ e ∈ es, HookDevice.uuidOf e ∈ devs.map (fun d => d.uuid) := by
  induction devs with
  | nil =>
    intro es h e he
    simp only [getHookStepDevices, Option.some.injEq] at h
    subst h
    simp at he
  | cons dv rest ih =>
    intro es h e he
    simp only [getHookStepDevices] at h
    split at h
    · exact absurd h (by simp)
    · rename_i tail hr
      split at h
      · obtain rfl := Option.some.inj h
        rcases List.mem_cons.mp he with rfl | he2
        · simp [HookDevice.uuidOf]
        · exact List.mem_cons.mpr (Or.inr (ih tail hr e he2))
      · split at h
        · exact absurd h (by simp)
        · rename_i a hl
          split at h
          · obtain rfl := Option.some.inj h
            rcases List.mem_cons.mp he with rfl | he2
            · simp [HookDevice.uuidOf]
            · exact List.mem_cons.mpr (Or.inr (ih tail hr e he2))
          · obtain rfl := Option.some.inj h
            exact List.mem_cons.mpr (Or.inr (ih tail hr e he))

/-! ## Theorems -/

/-- Claim C1 (code bug): `update` builds a `params` object carrying the
cached etag as an `If-None-Match` header, but passes a fresh
`{ json: true }` literal to `request.getAsync`, so the conditional-GET
header is never sent even when the cache holds a string etag. -/
theorem ifNoneMatch_built_but_not_sent :
    builtParams (some { etag := some "abc", body := "doc" }) =
      { json := true, ifNoneMatch := some "abc" } ∧
    sentParams (some { etag := some "abc", body := "doc" }) =
      { json := true, ifNoneMatch := none } :=
  ⟨rfl, rfl⟩

/-- Claim C2: on a 200 response the cache is replaced wholesale with the
new body and the etag response header, and exactly one
`target-state-update` event is emitted, carrying a (deep-copied) value
equal to the new body together with the `force` and `isFromApi` flags. -/
theorem update_change_propagation (force isFromApi : Bool) (st : SyncState)
    (resp : TsResponse) (now : Nat) (h : resp.statusCode = 200) :
    (update force isFromApi st resp now).1.cache =
      some { etag := resp.etag, body := resp.body } ∧
    (update force isFromApi st resp now).2 =
      [{ body := resp.body, force := force, isFromApi := isFromApi }] := by
  simp [update, h, cloneDeep]

/-- Witness for `update_change_propagation` at a concrete 200 response. -/
theorem update_change_propagation_witness :
    (update true false { cache := none, lastFetch := 0 }
        { statusCode := 200, etag := some "e1", body := "doc1" } 5).1.cache =
      some { etag := some "e1", body := "doc1" } ∧
    (update true false { cache := none, lastFetch := 0 }
        { statusCode := 200, etag := some "e1", body := "doc1" } 5).2 =
      [{ body := "doc1", force := true, isFromApi := false }] :=
  update_change_propagation true false { cache := none, lastFetch := 0 }
    { statusCode := 200, etag := some "e1", body := "doc1" } 5 rfl

/-- Claim C4: at the `n`-th consecutive failure (counter value `n`,
starting from 0) the poll loop sleeps
`min(appUpdatePollInterval, 15000 * 2 ^ n)` and increments the counter;
the counter after `n` consecutive failures from a fresh reset is `n`; a
successful `update()` resets the counter to 0 and sleeps the jittered
nominal interval, which lies in
`[appUpdatePollInterval, appUpdatePollInterval + maxJitter)` whenever the
jitter draw lies in `[0, maxJitter)`. -/
theorem poll_backoff_and_reset (interval maxJitter jitter n e : Nat)
    (h : jitter < maxJitter) :
    (pollStep interval jitter false n).sleep =
      min interval (15000 * 2 ^ n) ∧
    (pollStep interval jitter false n).errors = n + 1 ∧
    errorsAfterFailures interval jitter n = n ∧
    (pollStep interval jitter true e).errors = 0 ∧
    (pollStep interval jitter true e).sleep = interval + jitter ∧
    interval ≤ (pollStep interval jitter true e).sleep ∧
    (pollStep interval jitter true e).sleep < interval + maxJitter := by
  have herr : ∀ m, errorsAfterFailures interval jitter m = m := by
    intro m
    induction m with
    | zero => rfl
    | succ k ih => simp [errorsAfterFailures, pollStep, ih]
  refine ⟨rfl, rfl, herr n, rfl, ?_, ?_, ?_⟩ <;> simp [pollStep] <;> omega

/-- Witness for `poll_backoff_and_reset` at a concrete configuration. -/
theorem poll_backoff_and_reset_witness :
    (pollStep 100000 123 false 3).sleep = min 100000 (15000 * 2 ^ 3) ∧
    (pollStep 100000 123 false 3).errors = 3 + 1 ∧
    errorsAfterFailures 100000 123 3 = 3 ∧
    (pollStep 100000 123 true 9).errors = 0 ∧
    (pollStep 100000 123 true 9).sleep = 100000 + 123 ∧
    100000 ≤ (pollStep 100000 123 true 9).sleep ∧
    (pollStep 100000 123 true 9).sleep < 100000 + 60000 :=
  poll_backoff_and_reset 100000 60000 123 3 9 (by norm_num)

/-- Claim C5: when the per-app step function sees a current app with no
target app, it returns exactly the single `removeDependentApp` step for
that app's id, whatever the devices, image inventory, download set or
steps in progress are. -/
theorem removeDependentApp_when_target_absent (ack : AckMap) (appId : Nat)
    (availableImages : List AvailImage) (downloading : List Nat)
    (cur : DependentApp) (currentDevices : List CurrentDevice)
    (targetDevices : List TargetDevice)
    (stepsInProgress : List StepInProgress) :
    nextStepsForDependentApp ack appId availableImages downloading
        (some cur) none currentDevices targetDevices stepsInProgress =
      some [.removeDependentApp cur.appId] :=
  rfl

/-- Claim C7 (counterexample): a `fetch` step — one of the five defined
actions — is rejected by `executeStepAction` with the invalid-action
error, contrary to the claim that all five defined actions dispatch
without it. -/
theorem executeStepAction_fetch_raises_invalid_action :
    executeStepAction "fetch" =
      Except.error "Invalid proxyvisor action fetch" :=
  rfl

/-- Claim C7 (amended): `executeStepAction` dispatches to a handler exactly
for the three actions installed in `actionExecutors`
(`updateDependentTargets`, `sendDependentHooks`, `removeDependentApp`),
and fails with the invalid-action error exactly for every other action
name — including the diff-engine actions `fetch` and `noop`. -/
theorem executeStepAction_error_iff_not_validAction (action : String) :
    (executeStepAction action =
        Except.error s!"Invalid proxyvisor action {action}" ↔
      action ∉ validActions) ∧
    ((∃ h, executeStepAction action = Except.ok h) ↔
      action ∈ validActions) := by
  simp only [executeStepAction, actionExecutorFor, validActions]
  split_ifs with h1 h2 h3 <;>
    simp_all [List.mem_cons, List.not_mem_nil]

/-- Claim C8 (code bug): `cleanupTars` is meant to keep the current
commit's tarball, but `_.reject(files, fileToKeep)` uses lodash's
property-path iteratee shorthand, which matches no plain filename string,
so nothing is rejected and every file in the directory — the current
tarball included — is deleted. -/
theorem cleanupTars_deletes_kept_tarball :
    cleanupTarsDeleted 1 (some "abc") [tarFilename 1 "abc", "1-old.tar"] =
      [tarFilename 1 "abc", "1-old.tar"] ∧
    tarFilename 1 "abc" = "1-abc.tar" := by
  constructor <;> decide

/-- Claim C10: after `sendUpdate`, the acknowledged state for the device's
uuid holds the delivered target exactly when the hook responded 200 and
`null` on every other status; the hook error is raised (and logged)
exactly for statuses other than 200 and 202; and on any non-200 status —
202 included — no target state matches the acknowledged entry any more,
so the device re-qualifies for a hook on the next settled-state check. -/
theorem sendUpdate_ack_exactly_on_200 (ack : AckMap) (uuid : String)
    (target : TState) (statusCode : Nat) (ts : TState) :
    ackLookup (sendUpdate ack uuid target statusCode).acknowledgedState
        uuid =
      some (if statusCode = 200 then some target else none) ∧
    (sendUpdate ack uuid target statusCode).errorLogged =
      (statusCode != 200 && statusCode != 202) ∧
    ackMatches (sendUpdate ack uuid target statusCode).acknowledgedState
        uuid ts =
      (decide (statusCode = 200) && decide (ts = target)) := by
  by_cases h200 : statusCode = 200
  · subst h200
    refine ⟨?_, ?_, ?_⟩
    · simpa [sendUpdate] using ackLookup_ackSet ack uuid (some target)
    · simp [sendUpdate]
    · have hsu : sendUpdate ack uuid target 200 =
          { acknowledgedState := ackSet ack uuid (some target)
            errorLogged := false } := rfl
      rw [hsu, ackMatches_ackSet]
      simp [eq_comm]
  · refine ⟨?_, ?_, ?_⟩
    · simpa [sendUpdate, h200] using ackLookup_ackSet ack uuid none
    · simp [sendUpdate, h200]
    · simp only [sendUpdate, if_neg h200]
      rw [ackMatches_ackSet]
      simp [h200]

/-- A settled dependent app used to exercise the hook-check path: current
and target app records are equal, no image is required. -/
def exApp : DependentApp :=
  { appId := 1
    name := "app"
    commit := some "new"
    releaseId := none
    image := none
    imageId := none
    config := []
    environment := []
    parentApp := 7 }

/-- A current device whose target commit has been set but whose current
commit still differs: the settled-state hook check fires for it unless its
target is acknowledged. -/
def exDevice : CurrentDevice :=
  { uuid := "u1"
    name := "dev"
    lockExpiryDate := none
    markedForDeletion := false
    apps := [(1,
      { commit := some "old"
        config := some []
        environment := some []
        targetCommit := some "new"
        targetEnvironment := some []
        targetConfig := some [] })] }

/-- The device-target row matching `exDevice`'s target fields, so that
`_compareDevices` reports no difference. -/
def exDeviceTarget : TargetDevice :=
  { uuid := "u1"
    name := "dev"
    apps := [(1, { commit := some "new", environment := [], config := [] })] }

/-- The target state `_getHookStep` computes for `exDevice`. -/
def exTState : TState :=
  { appId := 1, commit := some "new", config := some [],
    environment := some [] }

/-- The `current` argument built from `exApp` and `exDevice`. -/
def exCurrent : DependentCurrent :=
  { apps := [exApp], devices := [exDevice] }

/-- The `target` argument built from `exApp` and `exDeviceTarget`. -/
def exTarget : DependentTarget :=
  { apps := [exApp], devices := [exDeviceTarget] }

/-- Claim C3 (counterexample): `getRequiredSteps` is not a pure function of
its five arguments alone — with identical five arguments, changing only
the process-wide `acknowledgedState` map changes the result: a settled app
whose device's delivered target has been acknowledged produces no step,
while the same five arguments with an empty acknowledged map produce a
`sendDependentHooks` step. -/
theorem getRequiredSteps_not_pure_in_five_args :
    getRequiredSteps [("u1", some exTState)] [] [] exCurrent exTarget [] ≠
      getRequiredSteps [] [] [] exCurrent exTarget [] := by
  decide

/-- Claim C3 (amended): `getRequiredSteps` is a pure function of its five
arguments together with the instance's acknowledged-state map: two
invocations on instances agreeing on `acknowledgedState` (whatever the
rest of the instance state, e.g. the per-device rate-limit map) return
equal step lists, order included. -/
theorem getRequiredSteps_pure_given_ack (st₁ st₂ : ProxyvisorState)
    (availableImages : List AvailImage) (downloading : List Nat)
    (current : DependentCurrent) (target : DependentTarget)
    (stepsInProgress : List StepInProgress)
    (h : st₁.acknowledgedState = st₂.acknowledgedState) :
    getRequiredStepsOn st₁ availableImages downloading current target
        stepsInProgress =
      getRequiredStepsOn st₂ availableImages downloading current target
        stepsInProgress := by
  simp [getRequiredStepsOn, h]

/-- Witness for `getRequiredSteps_pure_given_ack`: two instances differing
only in `lastRequestForDevice`. -/
theorem getRequiredSteps_pure_given_ack_witness :
    getRequiredStepsOn
        { acknowledgedState := [], lastRequestForDevice := [("u1", 42)] }
        [] [] { apps := [], devices := [] } { apps := [], devices := [] }
        [] =
      getRequiredStepsOn
        { acknowledgedState := [], lastRequestForDevice := [] }
        [] [] { apps := [], devices := [] } { apps := [], devices := [] }
        [] :=
  getRequiredSteps_pure_given_ack
    { acknowledgedState := [], lastRequestForDevice := [("u1", 42)] }
    { acknowledgedState := [], lastRequestForDevice := [] }
    [] [] { apps := [], devices := [] } { apps := [], devices := [] } []
    rfl

/-- Claim C9: when the desired state's `apps` field is null, the target-app
table is left entirely unchanged (no upserts, no deletions); when the
`devices` field is null, the target-device table is left entirely
unchanged. -/
theorem setTarget_null_frame (normaliseImage : String → String)
    (dependent : DependentInput) (db : DepDbState) :
    (dependent.apps = none →
      (applySetTarget normaliseImage dependent db).appTargets =
        db.appTargets) ∧
    (dependent.devices = none →
      (applySetTarget normaliseImage dependent db).deviceTargets =
        db.deviceTargets) := by
  obtain ⟨apps?, devices?⟩ := dependent
  constructor
  · intro h
    simp only at h
    subst h
    cases devices? with
    | none => rfl
    | some devs =>
      cases devs with
      | nil =>
        simp [applySetTarget, setTargetInTransaction, devicesTargetsForDB]
      | cons e rest =>
        have hnone : devicesTargetsForDB none (e :: rest) = none := by
          cases hl : devicesTargetsForDB none rest <;>
            simp [devicesTargetsForDB, hl]
        simp [applySetTarget, setTargetInTransaction, hnone]
  · intro h
    simp only at h
    subst h
    cases apps? with
    | none => rfl
    | some apps =>
      simp [applySetTarget, setTargetInTransaction]

/-- A pre-existing target-app row for the frame witness. -/
def exDbAppRow : DependentApp :=
  { appId := 9
    name := "x"
    commit := none
    releaseId := none
    image := none
    imageId := none
    config := []
    environment := []
    parentApp := 2 }

/-- A pre-existing target-device row for the frame witness. -/
def exDbDeviceRow : TargetDevice :=
  { uuid := "w", name := "y", apps := [] }

/-- A non-empty pair of target tables for the frame witness. -/
def exDb : DepDbState :=
  { appTargets := [exDbAppRow], deviceTargets := [exDbDeviceRow] }

/-- A desired state with null `apps` and non-null `devices`. -/
def exDepNullApps : DependentInput :=
  { apps := none, devices := some [("w", { name := "y", apps := [] })] }

/-- A desired state with non-null `apps` and null `devices`. -/
def exDepNullDevices : DependentInput :=
  { apps := some [(3, exDbAppRow)], devices := none }

/-- Witness for `setTarget_null_frame`: a null `apps` field with a
non-null `devices` field leaves a non-empty app table unchanged, and a
null `devices` field with a non-null `apps` field leaves a non-empty
device table unchanged. -/
theorem setTarget_null_frame_witness :
    (applySetTarget (fun s => s) exDepNullApps exDb).appTargets =
      exDb.appTargets ∧
    (applySetTarget (fun s => s) exDepNullDevices exDb).deviceTargets =
      exDb.deviceTargets :=
  ⟨(setTarget_null_frame (fun s => s) exDepNullApps exDb).1 rfl,
   (setTarget_null_frame (fun s => s) exDepNullDevices exDb).2 rfl⟩

/-- A device app entry whose target commit is null while its current
commit is set: its target state differs from its current state, yet the
hook check skips it. -/
def exHookDeviceApp : DeviceAppState :=
  { commit := some "c1"
    config := some []
    environment := some []
    targetCommit := none
    targetEnvironment := some []
    targetConfig := some [] }

/-- A current device carrying `exHookDeviceApp`, not marked for deletion
and never acknowledged. -/
def exHookDevice : CurrentDevice :=
  { uuid := "h1"
    name := "n"
    lockExpiryDate := none
    markedForDeletion := false
    apps := [(1, exHookDeviceApp)] }

/-- Claim C6 (counterexample): `exHookDevice` is not marked for deletion,
its target state differs from its current state, and nothing is
acknowledged for it — by the claim it should be included in the hook step,
yet `_getHookStep` produces no entry for it because its target commit is
null. -/
theorem hook_inclusion_claim_counterexample :
    getHookStepDevices [] 1 [exHookDevice] = some [] ∧
    exHookDevice.markedForDeletion = false ∧
    lookupApp? exHookDevice.apps 1 = some exHookDeviceApp ∧
    targetStateOf 1 exHookDeviceApp ≠ currentStateOf 1 exHookDeviceApp ∧
    ackMatches [] exHookDevice.uuid (targetStateOf 1 exHookDeviceApp) =
      false := by
  refine ⟨rfl, rfl, rfl, by decide, rfl⟩

/-- Claim C6 (amended): in the settled-state check, a current device (with
distinct device uuids) contributes an entry to the `sendDependentHooks`
device list exactly when it is marked for deletion, or its target commit
is non-null and its target state (appId, commit, config, environment)
differs both from its current state and from its last-acknowledged state.
In particular, once a device's target state is acknowledged
(`ackMatches` holds), the unchanged settled state yields no hook entry for
that device. -/
theorem getHookStep_device_membership (ack : AckMap) (appId : Nat)
    (devs : List CurrentDevice) :
    ∀ entries : List HookDevice,
      (devs.map (fun d => d.uuid)).Nodup →
      getHookStepDevices ack appId devs = some entries →
      ∀ d ∈ devs,
        (entries.any (fun e => HookDevice.uuidOf e = d.uuid) = true ↔
          (d.markedForDeletion = true ∨
            ∃ a, lookupApp? d.apps appId = some a ∧
              a.targetCommit ≠ none ∧
              targetStateOf appId a ≠ currentStateOf appId a ∧
              ackMatches ack d.uuid (targetStateOf appId a) = false)) := by
  induction devs with
  | nil =>
    intro entries _ _ d hd
    cases hd
  | cons dv rest ih =>
    intro entries hnd h d hd
    simp only [List.map_cons, List.nodup_cons] at hnd
    obtain ⟨hdvnotin, hndrest⟩ := hnd
    simp only [getHookStepDevices] at h
    split at h
    · exact absurd h (by simp)
    · rename_i tail hr
      have htail_mem := getHookStepDevices_uuidOf_mem ack appId rest tail hr
      rcases List.mem_cons.mp hd with rfl | hdmem
      · -- the device under scrutiny is the head device
        have htail_false :
            ¬ tail.any (fun e => HookDevice.uuidOf e = d.uuid) = true := by
          intro hany
          obtain ⟨e, he, hpe⟩ := List.any_eq_true.mp hany
          exact hdvnotin (of_decide_eq_true hpe ▸ htail_mem e he)
        split at h
        · rename_i hm
          obtain rfl := Option.some.inj h
          constructor
          · intro _
            exact Or.inl hm
          · intro _
            simp [HookDevice.uuidOf]
        · rename_i hm
          split at h
          · exact absurd h (by simp)
          · rename_i a hl
            split at h
            · rename_i hq
              obtain rfl := Option.some.inj h
              constructor
              · intro _
                refine Or.inr ⟨a, hl, hq.1, hq.2.1, ?_⟩
                simpa using hq.2.2
              · intro _
                simp [HookDevice.uuidOf]
            · rename_i hq
              obtain rfl := Option.some.inj h
              constructor
              · intro hany
                exact absurd hany htail_false
              · rintro (hm' | ⟨a', hl', h1, h2, h3⟩)
                · exact absurd hm' hm
                · rw [hl] at hl'
                  obtain rfl := Option.some.inj hl'
                  exact absurd ⟨h1, h2, by simp [h3]⟩ hq
      · -- the device under scrutiny sits in the tail
        have hne : ¬ dv.uuid = d.uuid := by
          intro hcontra
          exact hdvnotin
            (hcontra ▸ List.mem_map_of_mem (fun x => x.uuid) hdmem)
        have hih := ih tail hndrest hr d hdmem
        split at h
        · obtain rfl := Option.some.inj h
          simpa [List.any_cons, HookDevice.uuidOf, hne] using hih
        · split at h
          · exact absurd h (by simp)
          · rename_i a hl
            split at h
            · obtain rfl := Option.some.inj h
              simpa [List.any_cons, HookDevice.uuidOf, hne] using hih
            · obtain rfl := Option.some.inj h
              exact hih

/-- A deletion-marked device: always included in the hook step. -/
def exDelDevice : CurrentDevice :=
  { uuid := "z1"
    name := "n"
    lockExpiryDate := none
    markedForDeletion := true
    apps := [] }

/-- Witness for `getHookStep_device_membership`: a deletion-marked device
is reported in the computed hook entries. -/
theorem getHookStep_device_membership_witness :
    ([HookDevice.forDeletion "z1"].any
        (fun e => HookDevice.uuidOf e = exDelDevice.uuid) = true ↔
      (exDelDevice.markedForDeletion = true ∨
        ∃ a, lookupApp? exDelDevice.apps 5 = some a ∧
          a.targetCommit ≠ none ∧
          targetStateOf 5 a ≠ currentStateOf 5 a ∧
          ackMatches [] exDelDevice.uuid (targetStateOf 5 a) = false)) :=
  getHookStep_device_membership [] 5 [exDelDevice]
    [HookDevice.forDeletion "z1"] (by decide) (by decide) exDelDevice
    (by decide)

end BalenaSupervisor
